import Mathlib

/-!
# Verification of the spyne wire-encoding and request-pipeline core

Shallow embedding of the relevant parts of
`spyne/protocol/_model.py`, `spyne/model/binary.py` and
`spyne/server/_base.py` (a Python 2 codebase: `/` on integers is floor
division, `str` is a byte string, `base64.b64decode` converts
`binascii.Error` into `TypeError`).

Python/C library functions that the source calls (`datetime.timedelta`
normalization, `binascii.a2b_base64` / `b2a_base64`, `hexlify` /
`unhexlify`, `int()`, `tempfile.mkstemp`, the filesystem) are embedded
from their documented CPython 2.7 semantics; everything else is
translated from the repository source.
-/

namespace Spyne

/-! ## Python `datetime.timedelta`

A timedelta is represented by its total signed duration in microseconds.
CPython normalizes a timedelta so that `0 ≤ microseconds < 10^6`,
`0 ≤ seconds < 86400` and `days` carries the sign; the three accessors
below recover exactly those normalized fields (`Int.fdiv`/`Int.fmod`
are Python's floor division/modulo). -/

def usecPerSec : Int := 1000000

def usecPerDay : Int := 86400000000

/-- The normalized `days` field of the timedelta with total value `t` µs. -/
def td_days (t : Int) : Int := t.fdiv usecPerDay

/-- The normalized `seconds` field (`0 ≤ · < 86400`). -/
def td_seconds (t : Int) : Int := (t.fmod usecPerDay).fdiv usecPerSec

/-- The normalized `microseconds` field (`0 ≤ · < 10^6`). -/
def td_usecs (t : Int) : Int := t.fmod usecPerSec

/-- `''.join` on a list of strings (the source builds its result in a
`deque` of string fragments and joins it at the end). -/
def strJoin : List String → String
  | [] => ""
  | s :: rest => s ++ strJoin rest

/-- `duration_to_string` from `spyne/protocol/_model.py` (lines 333-378).

The translation notes:
* `value = -value; negative = True` for `value.days < 0` becomes the
  `v` binding (the `negative` flag is the inlined test `td_days t < 0`);
* `_total_seconds` returns a float; under the conjunction with
  `useconds == 0` that float is exactly the integer
  `days * 86400 + seconds` (microseconds are the only fractional
  contribution and whenever they are nonzero the conjunction is false
  both for the float and for this integer), so `tot_sec` is embedded as
  that integer;
* Python 2 integer division `value.seconds / 60` is `Int.fdiv`, which on
  these nonnegative operands is `/` below;
* the `deque` of fragments is a `List String`, `''.join` is `strJoin`,
  and `len(retval) == 2` is the length test on that list. -/
def duration_to_string (t : Int) : String :=
  let v : Int := if td_days t < 0 then -t else t
  let tot_sec : Int := td_days v * 86400 + td_seconds v
  let seconds : Int := td_seconds v % 60
  let minutes : Int := td_seconds v / 60
  let hours : Int := minutes / 60
  let minutes : Int := minutes % 60
  let useconds : Int := td_usecs v
  let r1 : List String :=
    (if td_days t < 0 then ["-P"] else ["P"]) ++
    (if td_days v ≠ 0 then [toString (td_days v) ++ "D"] else [])
  if tot_sec ≠ 0 ∧ tot_sec % 86400 = 0 ∧ useconds = 0 then
    strJoin r1
  else
    let r2 : List String := r1 ++ ["T"]
    let r3 : List String := r2 ++ (if hours > 0 then [toString hours ++ "H"] else [])
    let r4 : List String := r3 ++ (if minutes > 0 then [toString minutes ++ "M"] else [])
    let r5 : List String := r4 ++
      (if seconds > 0 ∨ useconds > 0 then
        [toString seconds] ++ (if useconds > 0 then ["." ++ toString useconds] else []) ++ ["S"]
      else [])
    let r6 : List String := if r5.length = 2 then r5 ++ ["0S"] else r5
    strJoin r6

/-! ### Helper lemmas about `strJoin` and the timedelta accessors -/

theorem strJoin_append (l₁ l₂ : List String) :
    strJoin (l₁ ++ l₂) = strJoin l₁ ++ strJoin l₂ := by
  induction l₁ with
  | nil => simp [strJoin]
  | cons s rest ih => simp [strJoin, ih, String.append_assoc]

theorem strJoin_length (l : List String) :
    (strJoin l).length = (l.map String.length).sum := by
  induction l with
  | nil => rfl
  | cons s rest ih => simp [strJoin, String.length_append, ih]

theorem ne_empty_of_length_ne_zero {s : String} (h : s.length ≠ 0) : s ≠ "" := by
  intro he; rw [he] at h; simp at h

theorem strJoin_ne_empty_of_mem {l : List String} {s : String}
    (hmem : s ∈ l) (hs : s.length ≠ 0) : strJoin l ≠ "" := by
  apply ne_empty_of_length_ne_zero
  rw [strJoin_length]
  have : s.length ≤ (l.map String.length).sum :=
    List.le_sum_of_mem (List.mem_map_of_mem String.length hmem)
  omega

theorem td_days_eq (t : Int) : td_days t = t / 86400000000 := by
  unfold td_days usecPerDay
  exact Int.fdiv_eq_ediv t (by norm_num)

theorem td_seconds_eq (t : Int) : td_seconds t = t % 86400000000 / 1000000 := by
  unfold td_seconds usecPerDay usecPerSec
  rw [Int.fmod_eq_emod t (by norm_num), Int.fdiv_eq_ediv _ (by norm_num)]

theorem td_usecs_eq (t : Int) : td_usecs t = t % 1000000 := by
  unfold td_usecs usecPerSec
  exact Int.fmod_eq_emod t (by norm_num)

theorem toString_intCast (n : Nat) : toString (n : Int) = toString n := rfl

/-- The length of `r5` in the encoder is never 2 once a time component
is present (so the `len(retval) == 2` fallback does not fire). -/
theorem r5_length_ne_two {r1 A B C : List String}
    (h1 : 1 ≤ r1.length) (h2 : 1 ≤ A.length + B.length + C.length) :
    ¬ ((((r1 ++ ["T"]) ++ A) ++ B) ++ C).length = 2 := by
  simp only [List.length_append, List.length_cons, List.length_nil]
  omega

/-- `strJoin` of the fragment list of the time-segment branch splits as
the part before `"T"` and the part after it. -/
theorem strJoin_T_decomp (r1 A B C : List String) :
    strJoin ((((r1 ++ ["T"]) ++ A) ++ B) ++ C) =
      strJoin r1 ++ "T" ++ strJoin (A ++ (B ++ C)) := by
  simp [strJoin_append, strJoin, String.append_assoc]

/-- **C1** (amended).  The source's whole-day short-circuit in
`duration_to_string` fires exactly for the *nonzero* exact multiples of
86400 seconds (with zero microseconds): for those the output is just the
sign and the day segment, with no `T` time segment; for every other
*nonzero* span a `T` segment is emitted followed by at least one
component.  (The zero span is a non-negative multiple of 86400 seconds
but is excluded by the `tot_sec != 0` conjunct and encodes as `"PT0S"`,
see the counterexample.) -/
theorem claim_C1 (t : Int) :
    (t ≠ 0 → (86400000000 : Int) ∣ t →
      duration_to_string t =
        (if t < 0 then "-P" else "P") ++ toString (t.natAbs / 86400000000) ++ "D") ∧
    (t ≠ 0 → ¬ (86400000000 : Int) ∣ t →
      ∃ s₁ s₂, duration_to_string t = s₁ ++ "T" ++ s₂ ∧ s₂ ≠ "") := by
  constructor
  · -- whole-day multiples: the short-circuit fires
    rintro ht ⟨k, hk⟩
    unfold duration_to_string
    simp only [td_days_eq, td_seconds_eq, td_usecs_eq]
    rcases lt_or_le t 0 with hneg | hpos
    · simp only [if_pos (show t / 86400000000 < 0 by omega), if_pos hneg]
      split
      · next hcond =>
        rw [if_pos (show -t / 86400000000 ≠ 0 by omega)]
        rw [show -t / 86400000000 = ((t.natAbs / 86400000000 : Nat) : Int) by omega,
          toString_intCast]
        simp [strJoin, String.append_assoc]
      · next hcond =>
        exact absurd ⟨by omega, by omega, by omega⟩ hcond
    · simp only [if_neg (show ¬ t / 86400000000 < 0 by omega),
        if_neg (show ¬ t < 0 by omega)]
      split
      · next hcond =>
        rw [if_pos (show t / 86400000000 ≠ 0 by omega)]
        rw [show t / 86400000000 = ((t.natAbs / 86400000000 : Nat) : Int) by omega,
          toString_intCast]
        simp [strJoin, String.append_assoc]
      · next hcond =>
        exact absurd ⟨by omega, by omega, by omega⟩ hcond
  · -- every other nonzero span gets a `T` segment with a component after it
    intro ht hndvd
    unfold duration_to_string
    simp only [td_days_eq, td_seconds_eq, td_usecs_eq]
    set v : Int := if t / 86400000000 < 0 then -t else t with hveq
    have hnv : ¬ (86400000000 : Int) ∣ v := by
      rw [hveq]
      split
      · exact fun h => hndvd ((Int.dvd_neg).mp h)
      · exact hndvd
    have hv0 : 0 ≤ v := by rw [hveq]; split <;> omega
    -- at least one H/M/S component is present
    have hsome :
        v % 86400000000 / 1000000 / 60 / 60 > 0 ∨
        v % 86400000000 / 1000000 / 60 % 60 > 0 ∨
        (v % 86400000000 / 1000000 % 60 > 0 ∨ v % 1000000 > 0) := by
      by_contra hall
      push_neg at hall
      obtain ⟨h1, h2, h3, h4⟩ := hall
      exact hnv (by omega)
    set sgn : List String := if t / 86400000000 < 0 then ["-P"] else ["P"] with hsgn
    set day : List String :=
      if v / 86400000000 ≠ 0 then [toString (v / 86400000000) ++ "D"] else [] with hday
    set A : List String :=
      if v % 86400000000 / 1000000 / 60 / 60 > 0 then
        [toString (v % 86400000000 / 1000000 / 60 / 60) ++ "H"] else [] with hA
    set B : List String :=
      if v % 86400000000 / 1000000 / 60 % 60 > 0 then
        [toString (v % 86400000000 / 1000000 / 60 % 60) ++ "M"] else [] with hB
    set C : List String :=
      if v % 86400000000 / 1000000 % 60 > 0 ∨ v % 1000000 > 0 then
        [toString (v % 86400000000 / 1000000 % 60)] ++
          (if v % 1000000 > 0 then ["." ++ toString (v % 1000000)] else []) ++ ["S"]
      else [] with hC
    have hcond : ¬ (v / 86400000000 * 86400 + v % 86400000000 / 1000000 ≠ 0 ∧
        (v / 86400000000 * 86400 + v % 86400000000 / 1000000) % 86400 = 0 ∧
        v % 1000000 = 0) := by
      rintro ⟨h1, h2, h3⟩
      exact hnv (by omega)
    rw [if_neg hcond]
    have hsd : 1 ≤ (sgn ++ day).length := by
      rw [hsgn]
      split <;> simp
    have habc : 1 ≤ A.length + B.length + C.length := by
      rcases hsome with h | h | h
      · rw [hA, if_pos h]; simp; omega
      · rw [hB, if_pos h]; simp; omega
      · rw [hC, if_pos h]; simp; omega
    rw [if_neg (r5_length_ne_two hsd habc)]
    refine ⟨strJoin (sgn ++ day), strJoin (A ++ (B ++ C)),
      strJoin_T_decomp _ _ _ _, ?_⟩
    rcases hsome with h | h | h
    · refine strJoin_ne_empty_of_mem
        (s := toString (v % 86400000000 / 1000000 / 60 / 60) ++ "H")
        ?_ (by rw [String.length_append, show ("H" : String).length = 1 from rfl]; omega)
      rw [hA, if_pos h]
      simp
    · refine strJoin_ne_empty_of_mem
        (s := toString (v % 86400000000 / 1000000 / 60 % 60) ++ "M")
        ?_ (by rw [String.length_append, show ("M" : String).length = 1 from rfl]; omega)
      rw [hB, if_pos h]
      simp
    · refine strJoin_ne_empty_of_mem (s := "S") ?_ (by decide)
      rw [hC, if_pos h]
      simp

/-- **C1**, counterexample to the claim as stated: the zero span has a
magnitude that is a non-negative multiple of 86400 seconds with zero
microseconds, yet `duration_to_string` emits a `T` time segment
(`"PT0S"`) instead of only the sign and day segment (`"P"`). -/
theorem claim_C1_counterexample :
    (86400000000 : Int) ∣ 0 ∧ td_usecs 0 = 0 ∧
    duration_to_string 0 = "PT0S" ∧ 'T' ∈ (duration_to_string 0).toList ∧
    duration_to_string 0 ≠ "P" :=
  ⟨⟨0, rfl⟩, by decide, by decide, by decide, by decide⟩

/-- **C1**, witness: the amended theorem applied to a span of exactly one
day (`"P1D"`, the short-circuit) and to a span of 1h30m (which gets a
`T` segment with components after it). -/
theorem claim_C1_witness :
    duration_to_string 86400000000 = "P1D" ∧
    (∃ s₁ s₂, duration_to_string 5400000000 = s₁ ++ "T" ++ s₂ ∧ s₂ ≠ "") := by
  constructor
  · have h := (claim_C1 86400000000).1 (by norm_num) ⟨1, by norm_num⟩
    rw [h]; decide
  · exact (claim_C1 5400000000).2 (by norm_num) (by omega)

/-! ## Binary codecs (`spyne/model/binary.py`)

Python 2 byte strings: the *byte* side (native `ByteArray` values) is
modeled as `List Nat` with entries below 256, the *text* side (encoded
strings, which in Python 2 are also byte strings) as `List Char`.
`binascii`'s encoders/decoders are embedded from the CPython 2.7 C
source (`Modules/binascii.c`): in particular the base64 decoder skips
invalid characters, *stops* at the first complete pad sequence, and
raises `binascii.Error("Incorrect padding")` — which Python 2's
`base64.b64decode` re-raises as `TypeError` — when the number of
six-bit groups consumed is not a multiple of four. -/

/-- Errors produced by the decode handlers: spyne's `ValidationError`
(which carries the offending value) versus the raw `TypeError` /
`binascii.Error` coming out of the standard library. -/
inductive DecodeErr where
  | validationError (value : List Char)
  | typeError (msg : String)
deriving DecidableEq, Repr

def b64Alphabet : List Char :=
  "ABCDEFGHIJKLMNOPQRSTUVWXYZabcdefghijklmnopqrstuvwxyz0123456789+/".toList

/-- The output character for a six-bit group (CPython `table_b2a_base64`). -/
def b64Char (n : Nat) : Char := b64Alphabet.getD n 'A'

/-- CPython `table_a2b_base64` lookup for a non-pad character: the six-bit
value of an alphabet character, `none` for an invalid one.  (The table
maps the pad `'='` to 0 only for `binascii_find_valid`; the decoder's
main loop tests for `'='` before reaching the table.) -/
def b64Val (c : Char) : Option Nat :=
  if b64Alphabet.indexOf c < 64 then some (b64Alphabet.indexOf c) else none

/-- `binascii.b2a_base64` without the trailing newline — i.e. Python 2
`base64.b64encode`: encode bytes in three-byte groups (six bits per
output character), padding the final partial group with `'='`. -/
def b64encode : List Nat → List Char
  | [] => []
  | [a] => [b64Char (a / 4), b64Char (a % 4 * 16), '=', '=']
  | [a, b] => [b64Char (a / 4), b64Char (a % 4 * 16 + b / 16), b64Char (b % 16 * 4), '=']
  | a :: b :: c :: t =>
    b64Char (a / 4) :: b64Char (a % 4 * 16 + b / 16) ::
      b64Char (b % 16 * 4 + c / 64) :: b64Char (c % 64) :: b64encode t

/-- Is a character counted by CPython's `binascii_find_valid` (an
alphabet character or the pad, at most `0x7f`)? -/
def b64IsValid (c : Char) : Bool :=
  c.toNat ≤ 0x7f && (c == '=' || (b64Val c).isSome)

/-- CPython 2.7 `binascii_find_valid(s, len, 0)`: the first valid
character of the remaining input, if any. -/
def findValid (l : List Char) : Option Char := l.find? b64IsValid

/-- The main loop of CPython 2.7 `binascii.a2b_base64`: state is the
quad position, the number of pending bits, the pending bit buffer and
the (reversed) output.  Invalid characters are skipped; an isolated or
early pad is skipped; a complete pad sequence *terminates* decoding
successfully; at end of input, pending bits mean "Incorrect padding". -/
def a2b_base64_aux : List Char → Nat → Nat → Nat → List Nat → Except DecodeErr (List Nat)
  | [], _, leftbits, _, acc =>
    if leftbits ≠ 0 then .error (.typeError "Incorrect padding") else .ok acc.reverse
  | ch :: rest, quad_pos, leftbits, leftchar, acc =>
    if ch.toNat > 0x7f ∨ ch = '\r' ∨ ch = '\n' ∨ ch = ' ' then
      a2b_base64_aux rest quad_pos leftbits leftchar acc
    else if ch = '=' then
      if quad_pos < 2 ∨ (quad_pos = 2 ∧ findValid rest ≠ some '=') then
        a2b_base64_aux rest quad_pos leftbits leftchar acc
      else
        .ok acc.reverse
    else
      match b64Val ch with
      | none => a2b_base64_aux rest quad_pos leftbits leftchar acc
      | some v =>
        let qp := (quad_pos + 1) % 4
        let lc := leftchar * 64 + v
        let lb := leftbits + 6
        if 8 ≤ lb then
          a2b_base64_aux rest qp (lb - 8) (lc % 2 ^ (lb - 8))
            ((lc / 2 ^ (lb - 8)) % 256 :: acc)
        else
          a2b_base64_aux rest qp lb lc acc

/-- Python 2 `base64.b64decode` (re-raising `binascii.Error` as
`TypeError` is reflected in the `typeError` constructor). -/
def b64decode (s : List Char) : Except DecodeErr (List Nat) :=
  a2b_base64_aux s 0 0 0 []

/-- The `string.maketrans('+/', '-_')` translation of `urlsafe_b64encode`. -/
def urlsafeFwd (c : Char) : Char :=
  if c = '+' then '-' else if c = '/' then '_' else c

/-- The `string.maketrans('-_', '+/')` translation of `urlsafe_b64decode`. -/
def urlsafeBack (c : Char) : Char :=
  if c = '-' then '+' else if c = '_' then '/' else c

def urlsafe_b64encode (bs : List Nat) : List Char :=
  (b64encode bs).map urlsafeFwd

def urlsafe_b64decode (s : List Char) : Except DecodeErr (List Nat) :=
  b64decode (s.map urlsafeBack)

def hexChars : List Char := "0123456789abcdef".toList

/-- One lowercase hex digit (CPython `table_hexdigit`). -/
def hexChar (n : Nat) : Char := hexChars.getD n '0'

/-- The value of one hex digit (`0-9`, `a-f`, `A-F`), as in CPython's
`a2b_hex`. -/
def hexDigitVal (c : Char) : Option Nat :=
  if 48 ≤ c.toNat ∧ c.toNat ≤ 57 then some (c.toNat - 48)
  else if 97 ≤ c.toNat ∧ c.toNat ≤ 102 then some (c.toNat - 87)
  else if 65 ≤ c.toNat ∧ c.toNat ≤ 70 then some (c.toNat - 55)
  else none

/-- `binascii.hexlify`: two lowercase hex digits per byte. -/
def hexlify : List Nat → List Char
  | [] => []
  | b :: rest => hexChar (b / 16) :: hexChar (b % 16) :: hexlify rest

/-- The digit-pair loop of CPython `binascii.a2b_hex` (the odd-length
case is rejected up front by `unhexlify`, so the singleton case below is
unreachable there). -/
def a2bHexPairs : List Char → Except DecodeErr (List Nat)
  | [] => .ok []
  | [_] => .error (.typeError "Odd-length string")
  | c1 :: c2 :: rest =>
    match hexDigitVal c1, hexDigitVal c2 with
    | some hi, some lo => (a2bHexPairs rest).map (fun bs => (hi * 16 + lo) :: bs)
    | _, _ => .error (.typeError "Non-hexadecimal digit found")

/-- `binascii.unhexlify` (Python 2 raises `TypeError` for both failure
modes: odd length, non-hex digit). -/
def unhexlify (s : List Char) : Except DecodeErr (List Nat) :=
  if s.length % 2 ≠ 0 then .error (.typeError "Odd-length string") else a2bHexPairs s

/-- Modelled from the spec: `_bytes_join` (defined in `spyne.util`,
which is not under `src/`) is `''.join` — raw concatenation of the byte
chunks of a sequence.  (Applied to a single Python 2 string it is the
identity, which is how the decode handlers use it.) -/
def bytes_join (v : List (List Nat)) : List Nat := v.flatten

/-- `ByteArray.to_base64` (`spyne/model/binary.py` lines 99-101). -/
def ByteArray.to_base64 (value : List (List Nat)) : List Char :=
  b64encode (bytes_join value)

/-- `ByteArray.from_base64` (lines 103-108): the *only* decode handler
with a `try`/`except` — a `TypeError` becomes `ValidationError(value)`,
carrying the offending input. -/
def ByteArray.from_base64 (value : List Char) : Except DecodeErr (List (List Nat)) :=
  match b64decode value with
  | .ok bs => .ok [bs]
  | .error _ => .error (.validationError value)

/-- `ByteArray.to_urlsafe_base64` (lines 110-112). -/
def ByteArray.to_urlsafe_base64 (value : List (List Nat)) : List Char :=
  urlsafe_b64encode (bytes_join value)

/-- `ByteArray.from_urlsafe_base64` (lines 114-119): no exception
handling — stdlib errors propagate.  (The `isinstance(value, unicode)`
re-encoding is a no-op for the Python 2 byte strings modeled here.) -/
def ByteArray.from_urlsafe_base64 (value : List Char) :
    Except DecodeErr (List (List Nat)) :=
  (urlsafe_b64decode value).map (fun bs => [bs])

/-- `ByteArray.to_hex` (lines 121-123). -/
def ByteArray.to_hex (value : List (List Nat)) : List Char :=
  hexlify (bytes_join value)

/-- `ByteArray.from_hex` (lines 125-127): no exception handling —
stdlib errors propagate. -/
def ByteArray.from_hex (value : List Char) : Except DecodeErr (List (List Nat)) :=
  (unhexlify value).map (fun bs => [bs])

/-- The four resolved binary-encoding variants (the sentinel
`BINARY_ENCODING_USE_DEFAULT` is resolved to one of these or to the
protocol suggestion before the handler dictionaries are consulted). -/
inductive BinEnc where
  | raw
  | hex
  | base64
  | urlsafeBase64
deriving DecidableEq, Repr

/-- `binary_encoding_handlers` (lines 130-135).  The `None` (raw) entry
is `''.join`; a Python 2 `str` is a byte string, modeled as the code
points of the joined bytes. -/
def binary_encoding_handlers : BinEnc → List (List Nat) → List Char
  | .raw, v => (bytes_join v).map Char.ofNat
  | .hex, v => ByteArray.to_hex v
  | .base64, v => ByteArray.to_base64 v
  | .urlsafeBase64, v => ByteArray.to_urlsafe_base64 v

/-- `binary_decoding_handlers` (lines 137-142).  The `None` (raw) entry
is `lambda x: [x]`. -/
def binary_decoding_handlers : BinEnc → List Char → Except DecodeErr (List (List Nat))
  | .raw, x => .ok [x.map Char.toNat]
  | .hex, x => ByteArray.from_hex x
  | .base64, x => ByteArray.from_base64 x
  | .urlsafeBase64, x => ByteArray.from_urlsafe_base64 x

/-! ### Correctness of the embedded base64/hex codecs -/

theorem b64Char_facts : ∀ v : Nat, v < 64 →
    (b64Char v).toNat ≤ 0x7f ∧ b64Char v ≠ '\r' ∧ b64Char v ≠ '\n' ∧
    b64Char v ≠ ' ' ∧ b64Char v ≠ '=' ∧ b64Val (b64Char v) = some v := by decide

/-- One decoder iteration on an alphabet character. -/
theorem a2b_step {v : Nat} (hv : v < 64) (rest : List Char) (qp lb lc : Nat)
    (acc : List Nat) :
    a2b_base64_aux (b64Char v :: rest) qp lb lc acc =
      if 8 ≤ lb + 6 then
        a2b_base64_aux rest ((qp + 1) % 4) (lb + 6 - 8) ((lc * 64 + v) % 2 ^ (lb + 6 - 8))
          ((lc * 64 + v) / 2 ^ (lb + 6 - 8) % 256 :: acc)
      else
        a2b_base64_aux rest ((qp + 1) % 4) (lb + 6) (lc * 64 + v) acc := by
  obtain ⟨h1, h2, h3, h4, h5, h6⟩ := b64Char_facts v hv
  rw [a2b_base64_aux]
  rw [if_neg (by push_neg; exact ⟨by omega, h2, h3, h4⟩), if_neg h5, h6]

theorem a2b_step0 {v : Nat} (hv : v < 64) (rest : List Char) (qp lc : Nat)
    (acc : List Nat) :
    a2b_base64_aux (b64Char v :: rest) qp 0 lc acc =
      a2b_base64_aux rest ((qp + 1) % 4) 6 (lc * 64 + v) acc := by
  rw [a2b_step hv]; norm_num

theorem a2b_step6 {v : Nat} (hv : v < 64) (rest : List Char) (qp lc : Nat)
    (acc : List Nat) :
    a2b_base64_aux (b64Char v :: rest) qp 6 lc acc =
      a2b_base64_aux rest ((qp + 1) % 4) 4 ((lc * 64 + v) % 16)
        ((lc * 64 + v) / 16 % 256 :: acc) := by
  rw [a2b_step hv]; norm_num

theorem a2b_step4 {v : Nat} (hv : v < 64) (rest : List Char) (qp lc : Nat)
    (acc : List Nat) :
    a2b_base64_aux (b64Char v :: rest) qp 4 lc acc =
      a2b_base64_aux rest ((qp + 1) % 4) 2 ((lc * 64 + v) % 4)
        ((lc * 64 + v) / 4 % 256 :: acc) := by
  rw [a2b_step hv]; norm_num

theorem a2b_step2 {v : Nat} (hv : v < 64) (rest : List Char) (qp lc : Nat)
    (acc : List Nat) :
    a2b_base64_aux (b64Char v :: rest) qp 2 lc acc =
      a2b_base64_aux rest ((qp + 1) % 4) 0 ((lc * 64 + v) % 1)
        ((lc * 64 + v) / 1 % 256 :: acc) := by
  rw [a2b_step hv]; norm_num

/-- Decoding one full four-character group emits the three encoded bytes
and returns to the initial state. -/
theorem a2b_quad {a b c : Nat} (ha : a < 256) (hb : b < 256) (hc : c < 256)
    (rest : List Char) (acc : List Nat) :
    a2b_base64_aux (b64Char (a / 4) :: b64Char (a % 4 * 16 + b / 16) ::
        b64Char (b % 16 * 4 + c / 64) :: b64Char (c % 64) :: rest) 0 0 0 acc =
      a2b_base64_aux rest 0 0 0 (c :: b :: a :: acc) := by
  rw [a2b_step0 (by omega)]
  rw [show (0 : Nat) * 64 + a / 4 = a / 4 from by omega,
    show ((0 : Nat) + 1) % 4 = 1 from rfl]
  rw [a2b_step6 (by omega)]
  rw [show (a / 4 * 64 + (a % 4 * 16 + b / 16)) / 16 % 256 = a from by omega,
    show (a / 4 * 64 + (a % 4 * 16 + b / 16)) % 16 = b / 16 from by omega,
    show ((1 : Nat) + 1) % 4 = 2 from rfl]
  rw [a2b_step4 (by omega)]
  rw [show (b / 16 * 64 + (b % 16 * 4 + c / 64)) / 4 % 256 = b from by omega,
    show (b / 16 * 64 + (b % 16 * 4 + c / 64)) % 4 = c / 64 from by omega,
    show ((2 : Nat) + 1) % 4 = 3 from rfl]
  rw [a2b_step2 (by omega)]
  rw [show (c / 64 * 64 + c % 64) / 1 % 256 = c from by omega,
    show (c / 64 * 64 + c % 64) % 1 = 0 from by omega,
    show ((3 : Nat) + 1) % 4 = 0 from rfl]

theorem findValid_cons_pad (l : List Char) : findValid ('=' :: l) = some '=' := by
  show List.find? b64IsValid ('=' :: l) = some '='
  rw [List.find?_cons, show b64IsValid '=' = true from by decide]

/-- The decoder run on `b64encode bs ++ extra` from the initial state:
if `bs` fills full quads the decoder continues into `extra`, otherwise
the final pad sequence terminates decoding successfully — discarding
`extra` entirely. -/
theorem a2b_b64encode_append :
    ∀ (bs : List Nat), (∀ x ∈ bs, x < 256) → ∀ (extra : List Char) (acc : List Nat),
    a2b_base64_aux (b64encode bs ++ extra) 0 0 0 acc =
      if bs.length % 3 = 0 then a2b_base64_aux extra 0 0 0 (bs.reverse ++ acc)
      else .ok (acc.reverse ++ bs)
  | [], _, extra, acc => by simp [b64encode]
  | [a], h, extra, acc => by
    have ha : a < 256 := h a (by simp)
    show a2b_base64_aux (b64Char (a / 4) :: b64Char (a % 4 * 16) :: '=' :: '=' :: extra)
        0 0 0 acc = _
    rw [a2b_step0 (by omega), a2b_step6 (by omega)]
    norm_num
    rw [a2b_base64_aux]
    rw [if_neg (by decide), if_pos rfl]
    rw [if_neg (by
      rintro (hlt | ⟨-, hne⟩)
      · omega
      · exact hne (findValid_cons_pad extra))]
    rw [show (a / 4 * 64 + a % 4 * 16) / 16 % 256 = a from by omega]
    simp [List.reverse_cons]
  | [a, b], h, extra, acc => by
    have ha : a < 256 := h a (by simp)
    have hb : b < 256 := h b (by simp)
    show a2b_base64_aux (b64Char (a / 4) :: b64Char (a % 4 * 16 + b / 16) ::
        b64Char (b % 16 * 4) :: '=' :: extra) 0 0 0 acc = _
    rw [a2b_step0 (by omega), a2b_step6 (by omega), a2b_step4 (by omega)]
    norm_num
    rw [a2b_base64_aux]
    rw [if_neg (by decide), if_pos rfl]
    rw [if_neg (by rintro (hlt | ⟨heq, -⟩) <;> omega)]
    rw [show (a / 4 * 64 + (a % 4 * 16 + b / 16)) / 16 % 256 = a from by omega,
      show ((a / 4 * 64 + (a % 4 * 16 + b / 16)) % 16 * 64 + b % 16 * 4) / 4 % 256 = b
        from by omega]
    simp [List.reverse_cons]
  | a :: b :: c :: t, h, extra, acc => by
    have ha : a < 256 := h a (by simp)
    have hb : b < 256 := h b (by simp)
    have hc : c < 256 := h c (by simp)
    show a2b_base64_aux (b64Char (a / 4) :: b64Char (a % 4 * 16 + b / 16) ::
        b64Char (b % 16 * 4 + c / 64) :: b64Char (c % 64) :: (b64encode t ++ extra))
        0 0 0 acc = _
    rw [a2b_quad ha hb hc]
    rw [a2b_b64encode_append t (fun x hx => h x (by simp [hx])) extra (c :: b :: a :: acc)]
    rw [show (a :: b :: c :: t).length % 3 = t.length % 3 by simp; omega]
    by_cases h3 : t.length % 3 = 0
    · rw [if_pos h3, if_pos h3]
      simp [List.reverse_cons, List.append_assoc]
    · rw [if_neg h3, if_neg h3]
      simp [List.reverse_cons, List.append_assoc]

/-- Round trip: Python 2 `b64decode (b64encode bs) = bs`. -/
theorem b64decode_b64encode (bs : List Nat) (h : ∀ x ∈ bs, x < 256) :
    b64decode (b64encode bs) = .ok bs := by
  have key := a2b_b64encode_append bs h [] []
  rw [List.append_nil] at key
  unfold b64decode
  rw [key]
  by_cases h3 : bs.length % 3 = 0
  · rw [if_pos h3, a2b_base64_aux]
    simp
  · rw [if_neg h3]
    simp

theorem urlsafe_char_roundtrip : ∀ v : Nat, v < 64 →
    urlsafeBack (urlsafeFwd (b64Char v)) = b64Char v := by decide

theorem urlsafe_pad_roundtrip : urlsafeBack (urlsafeFwd '=') = '=' := by decide

/-- The urlsafe translation pair is the identity on encoder output. -/
theorem urlsafe_translate_encode :
    ∀ (bs : List Nat), (∀ x ∈ bs, x < 256) →
      (b64encode bs).map (fun c => urlsafeBack (urlsafeFwd c)) = b64encode bs
  | [], _ => by simp [b64encode]
  | [a], h => by
    have ha : a < 256 := h a (by simp)
    simp only [b64encode, List.map_cons, List.map_nil]
    rw [urlsafe_char_roundtrip _ (by omega), urlsafe_char_roundtrip _ (by omega),
      urlsafe_pad_roundtrip]
  | [a, b], h => by
    have ha : a < 256 := h a (by simp)
    have hb : b < 256 := h b (by simp)
    simp only [b64encode, List.map_cons, List.map_nil]
    rw [urlsafe_char_roundtrip _ (by omega), urlsafe_char_roundtrip _ (by omega),
      urlsafe_char_roundtrip _ (by omega), urlsafe_pad_roundtrip]
  | a :: b :: c :: t, h => by
    have ha : a < 256 := h a (by simp)
    have hb : b < 256 := h b (by simp)
    have hc : c < 256 := h c (by simp)
    simp only [b64encode, List.map_cons]
    rw [urlsafe_char_roundtrip _ (by omega), urlsafe_char_roundtrip _ (by omega),
      urlsafe_char_roundtrip _ (by omega), urlsafe_char_roundtrip _ (by omega),
      urlsafe_translate_encode t (fun x hx => h x (by simp [hx]))]

/-- Round trip for the urlsafe variant. -/
theorem urlsafe_b64decode_encode (bs : List Nat) (h : ∀ x ∈ bs, x < 256) :
    urlsafe_b64decode (urlsafe_b64encode bs) = .ok bs := by
  unfold urlsafe_b64decode urlsafe_b64encode
  rw [List.map_map]
  rw [show (urlsafeBack ∘ urlsafeFwd) = (fun c => urlsafeBack (urlsafeFwd c)) from rfl]
  rw [urlsafe_translate_encode bs h]
  exact b64decode_b64encode bs h

theorem hexDigit_roundtrip : ∀ d : Nat, d < 16 →
    hexDigitVal (hexChar d) = some d := by decide

theorem hexlify_length : ∀ bs : List Nat, (hexlify bs).length = 2 * bs.length
  | [] => rfl
  | _ :: rest => by simp [hexlify, hexlify_length rest]; omega

theorem a2bHexPairs_hexlify :
    ∀ (bs : List Nat), (∀ x ∈ bs, x < 256) → a2bHexPairs (hexlify bs) = .ok bs
  | [], _ => rfl
  | b :: rest, h => by
    have hb : b < 256 := h b (by simp)
    show a2bHexPairs (hexChar (b / 16) :: hexChar (b % 16) :: hexlify rest) = _
    rw [a2bHexPairs]
    rw [hexDigit_roundtrip _ (by omega), hexDigit_roundtrip _ (by omega)]
    rw [a2bHexPairs_hexlify rest (fun x hx => h x (by simp [hx]))]
    show Except.map (fun bs => (b / 16 * 16 + b % 16) :: bs) (Except.ok rest) = _
    rw [show b / 16 * 16 + b % 16 = b from by omega]
    rfl

/-- Round trip: `unhexlify (hexlify bs) = bs`. -/
theorem unhexlify_hexlify (bs : List Nat) (h : ∀ x ∈ bs, x < 256) :
    unhexlify (hexlify bs) = .ok bs := by
  unfold unhexlify
  rw [if_neg (by rw [hexlify_length]; omega)]
  exact a2bHexPairs_hexlify bs h

theorem char_toNat_ofNat {x : Nat} (h : x < 256) : (Char.ofNat x).toNat = x := by
  have hv : x.isValidChar := Or.inl (by omega)
  simp [Char.ofNat, hv, Char.ofNatAux, Char.toNat, UInt32.toNat, BitVec.toNat_ofNatLt]

/-- **C3** (confirmed).  For every finite sequence of byte chunks and
each of the four binary encoding variants, decoding the encoding
succeeds and the concatenated content of the result equals the
concatenated content of the input. -/
theorem claim_C3 (b : List (List Nat)) (h : ∀ x ∈ bytes_join b, x < 256)
    (enc : BinEnc) :
    ∃ r, binary_decoding_handlers enc (binary_encoding_handlers enc b) = .ok r ∧
      bytes_join r = bytes_join b := by
  cases enc
  · -- raw
    refine ⟨[(bytes_join b).map (fun x => (Char.ofNat x).toNat)], ?_, ?_⟩
    · simp [binary_decoding_handlers, binary_encoding_handlers, List.map_map,
        Function.comp]
    · show bytes_join [(bytes_join b).map (fun x => (Char.ofNat x).toNat)] = _
      simp only [bytes_join, List.flatten_cons, List.flatten_nil, List.append_nil]
      have := List.map_congr_left (l := b.flatten)
        (f := fun x => (Char.ofNat x).toNat) (g := fun x => x)
        (fun x hx => char_toNat_ofNat (h x hx))
      simpa using this
  · -- hex
    refine ⟨[bytes_join b], ?_, by simp [bytes_join]⟩
    simp only [binary_decoding_handlers, binary_encoding_handlers, ByteArray.from_hex,
      ByteArray.to_hex]
    rw [unhexlify_hexlify _ h]
    rfl
  · -- base64
    refine ⟨[bytes_join b], ?_, by simp [bytes_join]⟩
    simp only [binary_decoding_handlers, binary_encoding_handlers,
      ByteArray.from_base64, ByteArray.to_base64]
    rw [b64decode_b64encode _ h]
  · -- urlsafe base64
    refine ⟨[bytes_join b], ?_, by simp [bytes_join]⟩
    simp only [binary_decoding_handlers, binary_encoding_handlers,
      ByteArray.from_urlsafe_base64, ByteArray.to_urlsafe_base64]
    rw [urlsafe_b64decode_encode _ h]
    rfl

/-- **C3**, witness: the round trip applied to the concrete chunk
sequence `[[0x01], [0x02]]` under all four variants; the spec's hex
example `hex-encode(bytes[0x01,0x02]) == "0102"` is checked alongside. -/
theorem claim_C3_witness :
    (∃ r, binary_decoding_handlers .hex (binary_encoding_handlers .hex [[1], [2]]) =
        .ok r ∧ bytes_join r = bytes_join [[1], [2]]) ∧
    (∃ r, binary_decoding_handlers .base64 (binary_encoding_handlers .base64 [[1], [2]]) =
        .ok r ∧ bytes_join r = bytes_join [[1], [2]]) ∧
    (∃ r, binary_decoding_handlers .urlsafeBase64
        (binary_encoding_handlers .urlsafeBase64 [[1], [2]]) =
        .ok r ∧ bytes_join r = bytes_join [[1], [2]]) ∧
    (∃ r, binary_decoding_handlers .raw (binary_encoding_handlers .raw [[1], [2]]) =
        .ok r ∧ bytes_join r = bytes_join [[1], [2]]) ∧
    binary_encoding_handlers .hex [[1], [2]] = "0102".toList :=
  ⟨claim_C3 [[1], [2]] (by decide) .hex, claim_C3 [[1], [2]] (by decide) .base64,
    claim_C3 [[1], [2]] (by decide) .urlsafeBase64, claim_C3 [[1], [2]] (by decide) .raw,
    by decide⟩

/-! ## `File` values and the filesystem (`spyne/model/binary.py` lines 145-233)

The filesystem is an association list from path to byte content (a
write prepends, a read takes the most recent entry), plus a counter
from which the model's `tempfile.mkstemp` derives a fresh name. -/

/-- Python exceptions surfacing from `rollover`/`File.to_base64`. -/
inductive PyExn where
  | typeError (msg : String)
  | assertionError
  | ioError (path : String)
deriving DecidableEq, Repr

/-- `File.Value.__init__` fields (lines 173-185).  `handle` is an opaque
token (only its presence matters to the embedded code). -/
structure FileValue where
  name : Option String := none
  path : Option String := none
  type : String := "application/octet-stream"
  data : Option (List (List Nat)) := none
  handle : Option Nat := none
deriving DecidableEq, Repr

structure FS where
  files : List (String × List Nat) := []
  tmpCounter : Nat := 0
deriving DecidableEq, Repr

/-- `os.path.isabs`: the path begins with the separator. -/
def isAbs (p : String) : Bool :=
  match p.data with
  | [] => false
  | c :: _ => c == '/'

/-- `os.path.basename`: everything after the last path separator. -/
def basename (p : String) : String :=
  String.mk ((p.data.reverse.takeWhile (fun c => !(c == '/'))).reverse)

/-- The per-counter suffix of the model's temporary file names (CPython
`mkstemp` uses random characters; only freshness matters here). -/
def natName : Nat → String
  | 0 => ""
  | n + 1 => natName n ++ "x"

/-- Modelled from the spec (CPython `tempfile.mkstemp`, not repository
code): allocates a fresh, initially empty file in the platform temp
directory and returns its absolute path (whose basename is nonempty). -/
def mkstemp (fs : FS) : String × FS :=
  let p := "/tmp/tmp" ++ natName fs.tmpCounter
  (p, { files := (p, []) :: fs.files, tmpCounter := fs.tmpCounter + 1 })

/-- `open(p, 'wb')`, write `content`, `close()`: the file is truncated
and afterwards holds exactly `content`. -/
def fsWrite (fs : FS) (p : String) (content : List Nat) : FS :=
  { fs with files := (p, content) :: fs.files }

def fsRead (fs : FS) (p : String) : Option (List Nat) :=
  (fs.files.find? (fun q => q.1 == p)).map (fun q => q.2)

/-- `File.Value.rollover` (lines 187-211).  `iter(self.data)` is the
*first* statement of the method: a value whose `data` is `None` raises
`TypeError` before any field is modified.  Otherwise: with `path` unset,
a fresh temporary file is allocated; with `path` set, the path is
asserted absolute and opened for (truncating) write.  `name` defaults to
the basename of the final path, the data chunks are written in order
(the file ends up holding their concatenation), and `data` is cleared
to `None`. -/
def FileValue.rollover (v : FileValue) (fs : FS) : Except PyExn (FileValue × FS) :=
  match v.data with
  | none => .error (.typeError "iteration over non-sequence")
  | some chunks =>
    match v.path with
    | none =>
      let q := mkstemp fs
      let newName := match v.name with | none => basename q.1 | some n => n
      .ok ({ v with path := some q.1, name := some newName, data := none },
        fsWrite q.2 q.1 (bytes_join chunks))
    | some p =>
      if isAbs p then
        let newName := match v.name with | none => basename p | some n => n
        .ok ({ v with path := some p, name := some newName, data := none },
          fsWrite fs p (bytes_join chunks))
      else .error .assertionError

/-- The `f.read(0x4000)` loop: split the file content into consecutive
chunks of `n` bytes (the final chunk may be shorter). -/
def chunksOf (n : Nat) (l : List Nat) : List (List Nat) :=
  if h : l = [] then []
  else if hn : n = 0 then []
  else l.take n :: chunksOf n (l.drop n)
termination_by l.length
decreasing_by
  have hl : l.length ≠ 0 := fun hz => h (List.eq_nil_of_length_eq_zero hz)
  simp [List.length_drop]
  omega

/-- `File.to_base64` (lines 213-227): asserts that `value.path` is set
(and truthy), opens the file, reads it in chunks of `0x4000` bytes and
yields `base64.b64encode` of each chunk.  (The generator is modeled by
the list of its yields; the source comment claims `0x4000` "needs to be
a multiple of 4 (for base64)" — but `0x4000 = 16384 ≡ 1 (mod 3)`.) -/
def File.to_base64 (fs : FS) (v : FileValue) : Except PyExn (List (List Char)) :=
  match v.path with
  | none => .error .assertionError
  | some p =>
    if p = "" then .error .assertionError
    else
      match fsRead fs p with
      | none => .error (.ioError p)
      | some content => .ok ((chunksOf 0x4000 content).map b64encode)

/-- `File.from_base64` (lines 229-233): single-shot decode into a fresh
`File.Value` with one in-memory chunk. -/
def File.from_base64 (value : List Char) : Except DecodeErr FileValue :=
  (b64decode value).map (fun bs => { data := some [bs] })

theorem drop_replicate {α : Type} (a : α) :
    ∀ (m n : Nat), (List.replicate n a).drop m = List.replicate (n - m) a
  | 0, n => by simp
  | m + 1, 0 => by simp
  | m + 1, n + 1 => by
    rw [List.replicate_succ, List.drop_succ_cons, drop_replicate a m n]
    congr 1
    omega

theorem take_replicate_of_le {α : Type} (a : α) :
    ∀ (m n : Nat), m ≤ n → (List.replicate n a).take m = List.replicate m a
  | 0, n, _ => by simp
  | m + 1, n + 1, h => by
    rw [List.replicate_succ, List.take_succ_cons,
      take_replicate_of_le a m n (by omega), List.replicate_succ]

theorem replicate_ne_nil {α : Type} (a : α) (n : Nat) (h : n ≠ 0) :
    List.replicate n a ≠ [] := by
  intro hz
  have h2 := congrArg List.length hz
  rw [List.length_replicate, List.length_nil] at h2
  exact h h2

theorem chunksOf_16384_replicate :
    chunksOf 0x4000 (List.replicate 16385 (0 : Nat)) =
      [List.replicate 16384 0, [0]] := by
  rw [chunksOf]
  rw [dif_neg (replicate_ne_nil _ _ (by norm_num)), dif_neg (by norm_num)]
  rw [take_replicate_of_le _ _ _ (by norm_num), drop_replicate]
  rw [show (16385 : Nat) - 16384 = 1 from by norm_num]
  rw [chunksOf]
  rw [dif_neg (replicate_ne_nil _ _ (by norm_num)), dif_neg (by norm_num)]
  rw [List.take_of_length_le (by rw [List.length_replicate]; norm_num), drop_replicate]
  rw [show (1 : Nat) - 16384 = 0 from by norm_num]
  rw [chunksOf]
  rw [dif_pos (show List.replicate 0 (0 : Nat) = [] from rfl)]
  rw [show List.replicate 1 (0 : Nat) = [0] from rfl]

/-- **C2** is a *code bug*: `File.to_base64` reads chunks of
`0x4000 = 16384` bytes, which is *not* a multiple of the base64 input
block size 3 (the source comment asserts a multiple of 4, the base64
*output* quantum, instead).  Hence every non-final chunk's encoding ends
in a `==` pad sequence, and Python's `b64decode` — which terminates at
the first complete pad sequence — decodes the concatenation of the
yields of a 16385-byte file to only its first 16384 bytes. -/
theorem claim_C2_code_bug :
    0x4000 % 3 = 1 ∧
    (∃ parts,
      File.to_base64 { files := [("/f", List.replicate 16385 0)], tmpCounter := 0 }
          { path := some "/f" } = .ok parts ∧
      b64decode parts.flatten = .ok (List.replicate 16384 0)) ∧
    List.replicate 16384 (0 : Nat) ≠ List.replicate 16385 0 := by
  refine ⟨by norm_num, ⟨_, rfl, ?_⟩, ?_⟩
  · show b64decode ((chunksOf 0x4000 (List.replicate 16385 0)).map b64encode).flatten = _
    rw [chunksOf_16384_replicate]
    simp only [List.map_cons, List.map_nil, List.flatten_cons, List.flatten_nil,
      List.append_nil]
    unfold b64decode
    rw [a2b_b64encode_append (List.replicate 16384 0)
      (fun x hx => by rw [List.eq_of_mem_replicate hx]; norm_num) (b64encode [0]) []]
    rw [if_neg (by rw [List.length_replicate]; norm_num)]
    rfl
  · intro h
    have h2 := congrArg List.length h
    rw [List.length_replicate, List.length_replicate] at h2
    omega

/-! ### C5: which decode failures are wrapped into validation errors -/

/-- Every error the base64 decoder's main loop can produce is the
stdlib "Incorrect padding" `TypeError`. -/
theorem a2b_base64_aux_error :
    ∀ (l : List Char) (qp lb lc : Nat) (acc : List Nat) (e : DecodeErr),
      a2b_base64_aux l qp lb lc acc = .error e → e = .typeError "Incorrect padding"
  | [], qp, lb, lc, acc, e => by
    rw [a2b_base64_aux]
    intro h
    split at h
    · cases h; rfl
    · cases h
  | ch :: rest, qp, lb, lc, acc, e => by
    rw [a2b_base64_aux]
    intro h
    split at h
    · exact a2b_base64_aux_error rest _ _ _ _ _ h
    · split at h
      · split at h
        · exact a2b_base64_aux_error rest _ _ _ _ _ h
        · cases h
      · split at h
        · exact a2b_base64_aux_error rest _ _ _ _ _ h
        · dsimp only at h
          split at h
          · exact a2b_base64_aux_error rest _ _ _ _ _ h
          · exact a2b_base64_aux_error rest _ _ _ _ _ h

/-- Every error of the hex pair loop is a stdlib `TypeError`. -/
theorem a2bHexPairs_error :
    ∀ (l : List Char) (e : DecodeErr),
      a2bHexPairs l = .error e → ∃ msg, e = .typeError msg
  | [], e => by intro h; cases h
  | [c], e => by
    intro h
    cases h
    exact ⟨"Odd-length string", rfl⟩
  | c1 :: c2 :: rest, e => by
    rw [a2bHexPairs]
    intro h
    split at h
    · cases hrec : a2bHexPairs rest with
      | ok bs => rw [hrec] at h; cases h
      | error e2 =>
        rw [hrec] at h
        simp only [Except.map] at h
        cases h
        exact a2bHexPairs_error rest _ hrec
    · cases h
      exact ⟨"Non-hexadecimal digit found", rfl⟩

/-- **C5** (amended).  Only the plain-base64 decode handler converts a
stdlib decode failure into a spyne `ValidationError` carrying the
offending value; the hex and URL-safe base64 handlers have no exception
handling and propagate the stdlib `TypeError` unwrapped. -/
theorem claim_C5 (s : List Char) :
    (∀ e, b64decode s = .error e →
      ByteArray.from_base64 s = .error (.validationError s)) ∧
    (∀ e, ByteArray.from_hex s = .error e → ∃ msg, e = .typeError msg) ∧
    (∀ e, ByteArray.from_urlsafe_base64 s = .error e → ∃ msg, e = .typeError msg) := by
  refine ⟨?_, ?_, ?_⟩
  · intro e he
    unfold ByteArray.from_base64
    rw [he]
  · intro e he
    unfold ByteArray.from_hex at he
    cases hu : unhexlify s with
    | ok bs => rw [hu] at he; cases he
    | error e2 =>
      rw [hu] at he
      simp only [Except.map] at he
      cases he
      unfold unhexlify at hu
      split at hu
      · cases hu
        exact ⟨"Odd-length string", rfl⟩
      · exact a2bHexPairs_error s _ hu
  · intro e he
    unfold ByteArray.from_urlsafe_base64 urlsafe_b64decode at he
    cases hb : b64decode (s.map urlsafeBack) with
    | ok bs => rw [hb] at he; cases he
    | error e2 =>
      rw [hb] at he
      simp only [Except.map] at he
      cases he
      exact ⟨"Incorrect padding", a2b_base64_aux_error _ _ _ _ _ _ hb⟩

/-- **C5**, counterexample to the claim as stated: the malformed
(odd-length) hex input `"0"` makes `ByteArray.from_hex` fail with the
raw stdlib `TypeError`, not with a validation error carrying the value;
likewise the malformed urlsafe-base64 input `"A"`. -/
theorem claim_C5_counterexample :
    ByteArray.from_hex ['0'] = .error (.typeError "Odd-length string") ∧
    ByteArray.from_urlsafe_base64 ['A'] = .error (.typeError "Incorrect padding") ∧
    DecodeErr.typeError "Odd-length string" ≠ .validationError ['0'] ∧
    DecodeErr.typeError "Incorrect padding" ≠ .validationError ['A'] := by
  refine ⟨by rfl, by rfl, by decide, by decide⟩

/-- **C5**, witness: the amended theorem applied to the concrete
malformed input `"0"` under both the base64 handler (wrapped into a
validation error) and the hex handler (raw `TypeError`). -/
theorem claim_C5_witness :
    ByteArray.from_base64 ['0'] = .error (.validationError ['0']) ∧
    (∃ msg, DecodeErr.typeError "Odd-length string" = .typeError msg) := by
  constructor
  · exact (claim_C5 ['0']).1 (.typeError "Incorrect padding") (by rfl)
  · exact (claim_C5 ['0']).2.1 (.typeError "Odd-length string") (by rfl)

/-! ## The request pipeline (`spyne/server/_base.py`)

A `Ctx` mirrors the context fields the embedded methods touch.  The
protocol collaborators are oracles: each stage either returns the
updated context (Python mutates `ctx` in place) or raises a `Fault`,
in which case the error also carries the context state at raise time
(the mutations already performed).  Catching only `Fault` matches the
source's `except Fault` — per the spec (§7) every other exception
propagates by design and is outside this model. -/

structure Fault where
  faultcode : String := "Server"
  faultstring : String := ""
deriving DecidableEq, Repr

structure Ctx where
  in_string : Option String := none
  in_document : Option String := none
  in_body_doc : Option String := none
  in_header_doc : Option String := none
  method_request_string : Option String := none
  in_object : Option (List String) := none
  in_header : Option (List String) := none
  in_error : Option Fault := none
  out_object : Option (List String) := none
  out_document : Option String := none
  out_string : Option (List String) := none
  out_error : Option Fault := none
  service_class : Option String := none
deriving DecidableEq, Repr

/-- The incoming-protocol collaborator:
`create_in_document`, `decompose_incoming_envelope` and
`generate_method_contexts`, each fallible with a `Fault`. -/
structure InProtocol where
  create_in_document : Ctx → Except (Fault × Ctx) Ctx
  decompose_incoming_envelope : Ctx → Except (Fault × Ctx) Ctx
  generate_method_contexts : Ctx → Except (Fault × Ctx) (List Ctx)

/-- The `except Fault` handler of `generate_contexts` (lines 70-75):
`ctx.in_object = None; ctx.in_error = e; ctx.out_error = e`. -/
def faultedCtx (c : Ctx) (e : Fault) : Ctx :=
  { c with in_object := none, in_error := some e, out_error := some e }

/-- `ServerBase.generate_contexts` (lines 52-77): run the three stages
under one `try`; on a `Fault` return the single-element tuple holding
the (faulted) context instead of raising. -/
def generate_contexts (p : InProtocol) (ctx : Ctx) : List Ctx :=
  match p.create_in_document ctx with
  | .error qe => [faultedCtx qe.2 qe.1]
  | .ok ctx1 =>
    match p.decompose_incoming_envelope ctx1 with
    | .error qe => [faultedCtx qe.2 qe.1]
    | .ok ctx2 =>
      match p.generate_method_contexts ctx2 with
      | .error qe => [faultedCtx qe.2 qe.1]
      | .ok ctxs => ctxs

/-- The first stage failure (fault and context state at raise time)
inside `generate_contexts`, if any. -/
def gcFirstFault (p : InProtocol) (ctx : Ctx) : Option (Fault × Ctx) :=
  match p.create_in_document ctx with
  | .error qe => some qe
  | .ok ctx1 =>
    match p.decompose_incoming_envelope ctx1 with
    | .error qe => some qe
    | .ok ctx2 =>
      match p.generate_method_contexts ctx2 with
      | .error qe => some qe
      | .ok _ => none

/-- **C4** (confirmed).  Whenever a stage of `generate_contexts` fails
with a fault, the function (which never raises: it is total) returns
exactly one context — the failed one — whose `in_error` and `out_error`
are both that same fault and whose `in_object` is absent. -/
theorem claim_C4 (p : InProtocol) (ctx : Ctx) (e : Fault) (c : Ctx)
    (h : gcFirstFault p ctx = some (e, c)) :
    ∃ c1, generate_contexts p ctx = [c1] ∧
      c1.in_error = some e ∧ c1.out_error = some e ∧ c1.in_object = none ∧
      (generate_contexts p ctx).length = 1 := by
  have key : generate_contexts p ctx = [faultedCtx c e] := by
    unfold gcFirstFault at h
    unfold generate_contexts
    split at h
    · rename_i qe heq
      cases h
      rfl
    · rename_i ctx1 heq
      split at h
      · rename_i qe heq2
        cases h
        rfl
      · rename_i ctx2 heq2
        split at h
        · rename_i qe heq3
          cases h
          rfl
        · cases h
  exact ⟨faultedCtx c e, key, rfl, rfl, rfl, by rw [key]; rfl⟩

/-- **C4**, witness: a protocol whose document parser always raises a
fault; the caller still receives exactly one context, with both error
fields set to that fault and `in_object` absent. -/
theorem claim_C4_witness :
    ∃ c1, generate_contexts
        { create_in_document := fun c => .error ({ faultcode := "Client", faultstring := "parse" }, c),
          decompose_incoming_envelope := fun c => .ok c,
          generate_method_contexts := fun c => .ok [c] } {} = [c1] ∧
      c1.in_error = some { faultcode := "Client", faultstring := "parse" } ∧
      c1.out_error = some { faultcode := "Client", faultstring := "parse" } ∧
      c1.in_object = none ∧
      (generate_contexts
        { create_in_document := fun c => .error ({ faultcode := "Client", faultstring := "parse" }, c),
          decompose_incoming_envelope := fun c => .ok c,
          generate_method_contexts := fun c => .ok [c] } {}).length = 1 :=
  claim_C4 _ {} _ {} rfl

/-- The outgoing-protocol collaborator: `serialize` (which may be the
driver of a streaming generator — modeled by its final effect on the
context) and `create_out_string`. -/
structure OutProtocol where
  serialize : Ctx → Ctx
  create_out_string : Ctx → Ctx

/-- `ServerBase.get_out_string` (lines 105-149), with the fired
lifecycle events recorded as a trace (second component).  Control flow
translated from the source: an out-of-band `out_string` returns
immediately; an unset `out_document` is produced by the serializer (the
generator-driving loop only forwards values into the producer until it
finishes, so its effect is the serializer's); the document-scoped
return/exception event fires (selected by `out_error`, only when
`service_class` is set), then `create_out_string`, then the
string-scoped event; finally an unset `out_string` defaults to a single
empty chunk. -/
def get_out_string (op : OutProtocol) (ctx : Ctx) : Ctx × List String :=
  if ctx.out_string ≠ none then (ctx, [])
  else
    let c1 := if ctx.out_document = none then op.serialize ctx else ctx
    let ev1 : List String :=
      if c1.service_class ≠ none then
        if c1.out_error = none then ["method_return_document"]
        else ["method_exception_document"]
      else []
    let c2 := op.create_out_string c1
    let ev2 : List String :=
      if c2.service_class ≠ none then
        if c2.out_error = none then ["method_return_string"]
        else ["method_exception_string"]
      else []
    let c3 := if c2.out_string = none then { c2 with out_string := some [""] } else c2
    (c3, ev1 ++ ev2)

/-- **C6** (confirmed).  On completion of `get_out_string` the context's
`out_string` is never absent: a value supplied at entry leaves the whole
context untouched (and fires nothing), and if it is still unset after
serialization it defaults to the single empty chunk. -/
theorem claim_C6 (op : OutProtocol) (ctx : Ctx) :
    ((get_out_string op ctx).1.out_string ≠ none) ∧
    (ctx.out_string ≠ none → get_out_string op ctx = (ctx, [])) ∧
    (ctx.out_string = none →
      (op.create_out_string
        (if ctx.out_document = none then op.serialize ctx else ctx)).out_string = none →
      (get_out_string op ctx).1.out_string = some [""]) := by
  refine ⟨?_, ?_, ?_⟩
  · unfold get_out_string
    split
    · next h => exact h
    · next h =>
      dsimp only
      split
      · split
        · simp
        · next h2 => exact h2
      · split
        · simp
        · next h2 => exact h2
  · intro h
    unfold get_out_string
    rw [if_pos h]
  · intro h1 h2
    unfold get_out_string
    rw [if_neg (by simp [h1])]
    dsimp only
    rw [if_pos h2]

/-- **C6**, witness: with trivial collaborators and a fresh context the
default empty chunk is produced; with `out_string` supplied at entry the
context is returned untouched. -/
theorem claim_C6_witness :
    (get_out_string { serialize := fun c => c, create_out_string := fun c => c }
      {}).1.out_string = some [""] ∧
    get_out_string { serialize := fun c => c, create_out_string := fun c => c }
      { out_string := some ["x"] } = ({ out_string := some ["x"] }, []) := by
  constructor
  · exact (claim_C6 { serialize := fun c => c, create_out_string := fun c => c } {}).2.2
      rfl rfl
  · exact (claim_C6 { serialize := fun c => c, create_out_string := fun c => c }
      { out_string := some ["x"] }).2.1 (by simp)

theorem get_out_string_out_of_band (op : OutProtocol) (ctx : Ctx)
    (h : ctx.out_string ≠ none) : get_out_string op ctx = (ctx, []) := by
  unfold get_out_string
  rw [if_pos h]

/-- The event trace of a run that was not short-circuited by an
out-of-band `out_string`: the document-phase event (if any) followed by
the string-phase event (if any), each selected by the `out_error` of
the context state at its firing point. -/
theorem get_out_string_trace (op : OutProtocol) (ctx : Ctx)
    (h : ctx.out_string = none) :
    (get_out_string op ctx).2 =
      (if (if ctx.out_document = none then op.serialize ctx else ctx).service_class ≠ none then
        (if (if ctx.out_document = none then op.serialize ctx else ctx).out_error = none
          then ["method_return_document"] else ["method_exception_document"])
       else []) ++
      (if (op.create_out_string
            (if ctx.out_document = none then op.serialize ctx else ctx)).service_class ≠ none then
        (if (op.create_out_string
            (if ctx.out_document = none then op.serialize ctx else ctx)).out_error = none
          then ["method_return_string"] else ["method_exception_string"])
       else []) := by
  unfold get_out_string
  rw [if_neg (by simp [h])]

/-- **C9** (confirmed).  In every execution of `get_out_string`: the
trace splits into document-phase events followed by string-phase events
(document strictly before string); within each phase the return and
exception events are mutually exclusive; and when a run actually fires
(out_string unset at entry, service class present at the firing point)
exactly the event selected by `out_error` at that point fires. -/
theorem claim_C9 (op : OutProtocol) (ctx : Ctx) :
    (∃ d s, (get_out_string op ctx).2 = d ++ s ∧
      (∀ e ∈ d, e = "method_return_document" ∨ e = "method_exception_document") ∧
      (∀ e ∈ s, e = "method_return_string" ∨ e = "method_exception_string")) ∧
    ¬("method_return_document" ∈ (get_out_string op ctx).2 ∧
      "method_exception_document" ∈ (get_out_string op ctx).2) ∧
    ¬("method_return_string" ∈ (get_out_string op ctx).2 ∧
      "method_exception_string" ∈ (get_out_string op ctx).2) ∧
    (ctx.out_string = none →
      ((if ctx.out_document = none then op.serialize ctx else ctx).service_class ≠ none →
        (((if ctx.out_document = none then op.serialize ctx else ctx).out_error = none ↔
            "method_return_document" ∈ (get_out_string op ctx).2) ∧
         ((if ctx.out_document = none then op.serialize ctx else ctx).out_error ≠ none ↔
            "method_exception_document" ∈ (get_out_string op ctx).2))) ∧
      ((op.create_out_string
          (if ctx.out_document = none then op.serialize ctx else ctx)).service_class ≠ none →
        (((op.create_out_string
            (if ctx.out_document = none then op.serialize ctx else ctx)).out_error = none ↔
            "method_return_string" ∈ (get_out_string op ctx).2) ∧
         ((op.create_out_string
            (if ctx.out_document = none then op.serialize ctx else ctx)).out_error ≠ none ↔
            "method_exception_string" ∈ (get_out_string op ctx).2)))) := by
  by_cases h0 : ctx.out_string = none
  · rw [get_out_string_trace op ctx h0]
    set σ : Ctx := if ctx.out_document = none then op.serialize ctx else ctx with hσ
    set τ : Ctx := op.create_out_string σ with hτ
    refine ⟨⟨_, _, rfl, ?_, ?_⟩, ?_, ?_, ?_⟩
    · split_ifs <;> simp
    · split_ifs <;> simp
    · by_cases hs1 : σ.service_class = none <;> by_cases he1 : σ.out_error = none <;>
        by_cases hs2 : τ.service_class = none <;> by_cases he2 : τ.out_error = none <;>
        simp [hs1, he1, hs2, he2]
    · by_cases hs1 : σ.service_class = none <;> by_cases he1 : σ.out_error = none <;>
        by_cases hs2 : τ.service_class = none <;> by_cases he2 : τ.out_error = none <;>
        simp [hs1, he1, hs2, he2]
    · intro h0r
      constructor
      · intro hs1
        by_cases he1 : σ.out_error = none <;> by_cases hs2 : τ.service_class = none <;>
          by_cases he2 : τ.out_error = none <;> simp [hs1, he1, hs2, he2]
      · intro hs2
        by_cases hs1 : σ.service_class = none <;> by_cases he1 : σ.out_error = none <;>
          by_cases he2 : τ.out_error = none <;> simp [hs1, he1, hs2, he2]
  · rw [get_out_string_out_of_band op ctx h0]
    refine ⟨⟨[], [], rfl, by simp, by simp⟩, by simp, by simp, fun h0r => absurd h0r h0⟩

/-- **C9**, witness: a concrete run with a service class set and no
`out_error`: exactly the two return events fire, document phase first. -/
theorem claim_C9_witness :
    ∃ d s, (get_out_string { serialize := fun c => c, create_out_string := fun c => c }
        { service_class := some "S" }).2 = d ++ s ∧
      (∀ e ∈ d, e = "method_return_document" ∨ e = "method_exception_document") ∧
      (∀ e ∈ s, e = "method_return_string" ∨ e = "method_exception_string") :=
  (claim_C9 { serialize := fun c => c, create_out_string := fun c => c }
    { service_class := some "S" }).1

/-! ### C7/C10: `rollover` -/

theorem natName_no_slash : ∀ n : Nat, ∀ c ∈ (natName n).data, (c == '/') = false
  | 0, c, hc => by cases hc
  | n + 1, c, hc => by
    rw [show natName (n + 1) = natName n ++ "x" from rfl, String.data_append] at hc
    rcases List.mem_append.mp hc with h | h
    · exact natName_no_slash n c h
    · have hx : c = 'x' := by simpa using h
      rw [hx]
      rfl

theorem takeWhile_append_of_all {α : Type} (p : α → Bool) :
    ∀ (l₁ l₂ : List α), (∀ c ∈ l₁, p c = true) →
      List.takeWhile p (l₁ ++ l₂) = l₁ ++ List.takeWhile p l₂
  | [], l₂, _ => rfl
  | a :: t, l₂, h => by
    rw [List.cons_append, List.takeWhile_cons, h a (by simp),
      takeWhile_append_of_all p t l₂ (fun c hc => h c (by simp [hc]))]
    simp

theorem isAbs_tmp (n : Nat) : isAbs ("/tmp/tmp" ++ natName n) = true := rfl

theorem basename_tmp (n : Nat) :
    basename ("/tmp/tmp" ++ natName n) = "tmp" ++ natName n := by
  unfold basename
  rw [String.data_append, List.reverse_append]
  rw [takeWhile_append_of_all _ _ _ (fun c hc => by
    have : (c == '/') = false := natName_no_slash n c (List.mem_reverse.mp hc)
    simp [this])]
  rw [show List.takeWhile (fun c => !(c == '/')) ("/tmp/tmp".data.reverse) =
    ['p', 'm', 't'] from rfl]
  rw [List.reverse_append, List.reverse_reverse]
  rfl

theorem basename_tmp_ne_empty (n : Nat) :
    basename ("/tmp/tmp" ++ natName n) ≠ "" := by
  rw [basename_tmp]
  apply ne_empty_of_length_ne_zero
  rw [String.length_append]
  have : ("tmp" : String).length = 3 := rfl
  omega

theorem fsRead_fsWrite (fs : FS) (p : String) (content : List Nat) :
    fsRead (fsWrite fs p content) p = some content := by
  unfold fsRead fsWrite
  rw [List.find?_cons, show ((p, content).1 == p) = true by simp]
  rfl

/-- **C7** (confirmed).  `rollover` on a value with only `data` set
allocates a fresh temporary file: afterwards `path` holds its absolute
path, `name` its non-empty basename, the file holds the chunks'
concatenation (written in order), and `data` is cleared; with `path`
already set, that path is written instead and no temporary file is
allocated (the temp counter is unchanged). -/
theorem claim_C7 (v : FileValue) (fs : FS) (chunks : List (List Nat))
    (hdata : v.data = some chunks) :
    (v.path = none → v.name = none →
      ∃ v1 fs1, v.rollover fs = .ok (v1, fs1) ∧
        ∃ p, v1.path = some p ∧ isAbs p = true ∧
          v1.name = some (basename p) ∧ basename p ≠ "" ∧
          fsRead fs1 p = some (bytes_join chunks) ∧
          v1.data = none ∧ fs1.tmpCounter = fs.tmpCounter + 1) ∧
    (∀ p0, v.path = some p0 → isAbs p0 = true →
      ∃ v1 fs1, v.rollover fs = .ok (v1, fs1) ∧
        v1.path = some p0 ∧ v1.name = some (v.name.getD (basename p0)) ∧
        fsRead fs1 p0 = some (bytes_join chunks) ∧
        v1.data = none ∧ fs1.tmpCounter = fs.tmpCounter) := by
  constructor
  · intro hpath hname
    unfold FileValue.rollover
    rw [hdata, hpath, hname]
    refine ⟨_, _, rfl, "/tmp/tmp" ++ natName fs.tmpCounter, rfl, isAbs_tmp _, rfl,
      basename_tmp_ne_empty _, ?_, rfl, rfl⟩
    exact fsRead_fsWrite _ _ _
  · intro p0 hpath habs
    unfold FileValue.rollover
    rw [hdata, hpath]
    dsimp only
    rw [if_pos habs]
    refine ⟨_, _, rfl, rfl, ?_, fsRead_fsWrite _ _ _, rfl, rfl⟩
    cases hn : v.name <;> simp [hn]

/-- **C7**, witness: rolling over a value holding only the two data
chunks `[1, 2]` and `[3]` on an empty filesystem. -/
theorem claim_C7_witness :
    ∃ v1 fs1,
      FileValue.rollover { data := some [[1, 2], [3]] } { files := [], tmpCounter := 0 } =
        .ok (v1, fs1) ∧
      ∃ p, v1.path = some p ∧ isAbs p = true ∧
        v1.name = some (basename p) ∧ basename p ≠ "" ∧
        fsRead fs1 p = some (bytes_join [[1, 2], [3]]) ∧
        v1.data = none ∧ fs1.tmpCounter = 0 + 1 :=
  (claim_C7 { data := some [[1, 2], [3]] } { files := [], tmpCounter := 0 }
    [[1, 2], [3]] rfl).1 rfl rfl

/-- **C10** (confirmed).  `rollover` on a value whose `data` is `None`
raises `TypeError` (from `iter(self.data)`, the method's first
statement, before any field is assigned); since a successful `rollover`
clears `data` to `None`, a second consecutive `rollover` on the result
always fails — `rollover` is not idempotent. -/
theorem claim_C10 (v : FileValue) (fs : FS) :
    (v.data = none →
      v.rollover fs = .error (.typeError "iteration over non-sequence")) ∧
    (∀ v1 fs1, v.rollover fs = .ok (v1, fs1) →
      ∀ fs2, v1.rollover fs2 = .error (.typeError "iteration over non-sequence")) := by
  constructor
  · intro h
    unfold FileValue.rollover
    rw [h]
  · intro v1 fs1 hok fs2
    have hd : v1.data = none := by
      unfold FileValue.rollover at hok
      split at hok
      · cases hok
      · split at hok
        · cases hok
          rfl
        · split at hok
          · cases hok
            rfl
          · cases hok
    unfold FileValue.rollover
    rw [hd]

/-- **C10**, witness: a fresh value with `data = None` fails, and a
rolled-over value fails on the second `rollover`. -/
theorem claim_C10_witness :
    FileValue.rollover { data := none } { files := [], tmpCounter := 0 } =
      .error (.typeError "iteration over non-sequence") ∧
    (∀ fs2, FileValue.rollover
        { name := some "tmp", path := some "/tmp/tmp", data := none } fs2 =
      .error (.typeError "iteration over non-sequence")) := by
  constructor
  · exact (claim_C10 { data := none } { files := [], tmpCounter := 0 }).1 rfl
  · exact (claim_C10 { data := some [[7]] } { files := [], tmpCounter := 0 }).2
      { name := some "tmp", path := some "/tmp/tmp", data := none }
      (fsWrite { files := [("/tmp/tmp", [])], tmpCounter := 1 } "/tmp/tmp" [7]) rfl

/-! ## Scalar codec: `integer_from_string` (`spyne/protocol/_model.py`
lines 178-187) -/

/-- The per-type options `integer_from_string` consults
(`cls.Attributes`). -/
structure IntegerAttributes where
  max_str_len : Option Nat := none
  format : Option String := none
deriving DecidableEq, Repr

/-- spyne `ValidationError(value, msg)`: the first argument is the
offending raw string. -/
inductive ValErr where
  | validationError (value : String) (msg : String)
deriving DecidableEq, Repr

/-- Python `str.isspace` characters relevant to `int()` stripping (the
common ASCII whitespace). -/
def isPySpace (c : Char) : Bool :=
  c == ' ' || c == '	' || c == '
' || c == '
'

/-- A non-empty all-digit run, as a number. -/
def digitsVal (l : List Char) : Option Nat :=
  match l with
  | [] => none
  | _ =>
    if l.all (fun c => c.isDigit) then
      some (l.foldl (fun acc c => acc * 10 + (c.toNat - 48)) 0)
    else none

/-- Python 2 `int(string)`: strip surrounding whitespace, an optional
sign, then a non-empty run of decimal digits; anything else raises
`ValueError` (modeled as `none`). -/
def pyIntParse (s : String) : Option Int :=
  let stripped := ((s.data.dropWhile isPySpace).reverse.dropWhile isPySpace).reverse
  match stripped with
  | '-' :: rest => (digitsVal rest).map (fun n => -(n : Int))
  | '+' :: rest => (digitsVal rest).map (fun n => (n : Int))
  | l => (digitsVal l).map (fun n => (n : Int))

/-- `integer_from_string` (lines 178-187): an optional maximum input
length is checked *before* the parse; violating it — or a failing
parse — raises `ValidationError` carrying the offending string. -/
def integer_from_string (attrs : IntegerAttributes) (s : String) : Except ValErr Int :=
  match attrs.max_str_len with
  | some max_len =>
    if s.length > max_len then
      .error (.validationError s
        ("Integer %r longer than " ++ toString max_len ++ " characters"))
    else
      match pyIntParse s with
      | some v => .ok v
      | none => .error (.validationError s "Could not cast %r to integer")
  | none =>
    match pyIntParse s with
    | some v => .ok v
    | none => .error (.validationError s "Could not cast %r to integer")

/-- **C8** (confirmed).  With a declared `max_str_len`, every input
string strictly longer than it makes `integer_from_string` fail with a
validation error whose value is the offending string — regardless of
whether the string would parse (the length guard precedes the parse). -/
theorem claim_C8 (max_len : Nat) (fmt : Option String) (s : String)
    (h : s.length > max_len) :
    integer_from_string { max_str_len := some max_len, format := fmt } s =
      .error (.validationError s
        ("Integer %r longer than " ++ toString max_len ++ " characters")) := by
  unfold integer_from_string
  dsimp only
  rw [if_pos h]

/-- **C8**, witness: `max_str_len = 3` and input `"12345"` (which would
otherwise parse) fails with a validation error referencing `"12345"`. -/
theorem claim_C8_witness :
    integer_from_string { max_str_len := some 3 } "12345" =
      .error (.validationError "12345" "Integer %r longer than 3 characters") := by
  have h := claim_C8 3 none "12345" (by decide)
  rw [h]
  rfl

end Spyne
